import Mathlib

/-!
Shallow embedding of the booking backend (`src/backend/src/app.ts`,
`src/backend/src/types.ts`, Prisma migration in `src/unnamed/part_002`).

Modelling conventions:
* Timestamps are integers (millisecond clock).  Each HTTP handler samples
  `now = new Date()` once and executes atomically at that instant, as the
  spec states ("now is sampled once per operation"); the Prisma column
  default `startTime TIMESTAMP DEFAULT CURRENT_TIMESTAMP` therefore
  evaluates to the same instant `now`.
* The store is the Prisma database: lists of rows.  Primary-key and
  foreign-key violations, which Prisma raises as generic (non-HTTP)
  errors, are modelled by a `storeError` result that leaves the store
  unchanged and is mapped to HTTP 500 by the catch-all error handler.
* JavaScript truthiness on request strings: the empty string is falsy,
  every other string is truthy.  A wire field of an update request is
  therefore `none` (absent), an empty string, or a proper value.  For
  `endTime` the proper value is carried as its parsed timestamp.
-/

/-- Device row (`model Device`, `DeviceSchema` in types.ts). -/
structure Device where
  id : String
  name : String
deriving Repr, DecidableEq

/-- Auditory row (`model Auditory`, `AuditorySchema` in types.ts). -/
structure Auditory where
  id : String
  name : String
  capacity : Int
deriving Repr, DecidableEq

/-- Booking row (migration `part_002`: columns `id, deviceId, auditoryId,
startTime, endTime`). -/
structure Booking where
  id : String
  deviceId : String
  auditoryId : String
  startTime : Int
  endTime : Int
deriving Repr, DecidableEq

/-- A booking as returned with `include: { device: true, auditory: true }`. -/
structure BookingView where
  booking : Booking
  device : Option Device
  auditory : Option Auditory
deriving Repr, DecidableEq

/-- The relational store. -/
structure DB where
  devices : List Device
  auditories : List Auditory
  bookings : List Booking
deriving Repr, DecidableEq

/-- Wire value of the `endTime` field of an update request: either the empty
string or a (nonempty) timestamp string, carried as its parsed value. -/
inductive TimeStr where
  | emptyStr : TimeStr
  | time : Int → TimeStr
deriving Repr, DecidableEq

/-- Body of `PUT /api/bookings/:id` (`UpdateBookingSchema`): all three fields
optional strings. -/
structure BookingPatch where
  deviceId : Option String := none
  auditoryId : Option String := none
  endTime : Option TimeStr := none
deriving Repr, DecidableEq

/-- JavaScript truthiness of an optional string: present and nonempty. -/
def strTruthy : Option String → Bool
  | some s => !(s == "")
  | none => false

/-- The parsed `newEndAt` of the update handler: defined exactly when the wire
`endTime` is truthy (nonempty). -/
def timeVal : Option TimeStr → Option Int
  | some (TimeStr.time t) => some t
  | some TimeStr.emptyStr => none
  | none => none

/-- Result of `POST /api/bookings` (createBooking handler). -/
inductive CreateResult where
  | invalidInterval : CreateResult
  | roomBusy : Int → CreateResult
  | created : BookingView → CreateResult
  | storeError : CreateResult
deriving Repr, DecidableEq

/-- Result of `PUT /api/bookings/:id` (updateBooking handler). -/
inductive UpdateResult where
  | invalidInterval : UpdateResult
  | notFound : UpdateResult
  | roomBusy : Int → UpdateResult
  | updated : BookingView → UpdateResult
  | storeError : UpdateResult
deriving Repr, DecidableEq

/-- Result of `DELETE /api/bookings/:id`. -/
inductive DeleteResult where
  | deleted : DeleteResult
  | storeError : DeleteResult
deriving Repr, DecidableEq

/-- HTTP status of a create outcome (response schema of `POST /api/bookings`;
`storeError` reaches the catch-all handler as 500). -/
def createStatus : CreateResult → Nat
  | CreateResult.invalidInterval => 400
  | CreateResult.roomBusy _ => 409
  | CreateResult.created _ => 201
  | CreateResult.storeError => 500

/-- HTTP status of an update outcome. -/
def updateStatus : UpdateResult → Nat
  | UpdateResult.invalidInterval => 400
  | UpdateResult.notFound => 404
  | UpdateResult.roomBusy _ => 409
  | UpdateResult.updated _ => 200
  | UpdateResult.storeError => 500

/-- HTTP status of a delete outcome. -/
def deleteStatus : DeleteResult → Nat
  | DeleteResult.deleted => 204
  | DeleteResult.storeError => 500

/-- Lookup of a device row by id (`prisma.device` with `where: { id }`). -/
def findDevice (db : DB) (i : String) : Option Device :=
  db.devices.find? (fun d => decide (d.id = i))

/-- Lookup of an auditory row by id. -/
def findAuditory (db : DB) (i : String) : Option Auditory :=
  db.auditories.find? (fun a => decide (a.id = i))

/-- The conflict query of createBooking: `prisma.booking.findFirst({ where:
{ auditoryId, endTime: { gt: now } } })`. -/
def findActiveBooking (db : DB) (aud : String) (now : Int) : Option Booking :=
  db.bookings.find? (fun b => decide (b.auditoryId = aud ∧ now < b.endTime))

/-- The conflict query of updateBooking, which additionally excludes the row
being updated: `id: { not: id }`. -/
def findConflicting (db : DB) (aud : String) (now : Int) (i : String) :
    Option Booking :=
  db.bookings.find?
    (fun b => decide (b.auditoryId = aud ∧ now < b.endTime ∧ b.id ≠ i))

/-- Expansion performed by `include: { device: true, auditory: true }`. -/
def expandBooking (db : DB) (b : Booking) : BookingView :=
  { booking := b, device := findDevice db b.deviceId,
    auditory := findAuditory db b.auditoryId }

/-- Handler of `POST /api/bookings` (app.ts:436-472).  Checks
`endAt <= now` (400), then the active-booking conflict (409), then inserts
with `startTime` defaulting to the current instant.  Primary-key and
foreign-key violations of the insert surface as generic store errors. -/
def createBooking (db : DB) (newId devId audId : String) (endTime now : Int) :
    CreateResult × DB :=
  if endTime ≤ now then
    (CreateResult.invalidInterval, db)
  else
    match findActiveBooking db audId now with
    | some c => (CreateResult.roomBusy c.endTime, db)
    | none =>
      if db.bookings.any (fun b => decide (b.id = newId)) then
        (CreateResult.storeError, db)
      else if (findDevice db devId).isNone then
        (CreateResult.storeError, db)
      else if (findAuditory db audId).isNone then
        (CreateResult.storeError, db)
      else
        let b : Booking :=
          { id := newId, deviceId := devId, auditoryId := audId,
            startTime := now, endTime := endTime }
        (CreateResult.created (expandBooking db b),
         { db with bookings := db.bookings ++ [b] })

/-- The `data` object built by the update handler, applied to a row: each
field is written only when its wire value is truthy (app.ts:567-570). -/
def applyPatch (b : Booking) (p : BookingPatch) : Booking :=
  { b with
    deviceId :=
      match p.deviceId with
      | some s => if s = "" then b.deviceId else s
      | none => b.deviceId
    auditoryId :=
      match p.auditoryId with
      | some s => if s = "" then b.auditoryId else s
      | none => b.auditoryId
    endTime :=
      match timeVal p.endTime with
      | some t => t
      | none => b.endTime }

/-- The `targetAuditoryId = auditoryId || booking.auditoryId` of the update
handler (falls back to the stored row's auditory when the wire field is
absent or empty). -/
def targetAuditoryId (p : BookingPatch) (b : Booking) : String :=
  match p.auditoryId with
  | some s => if s = "" then b.auditoryId else s
  | none => b.auditoryId

/-- Handler of `PUT /api/bookings/:id` (app.ts:514-577).  Order of checks as
in the source: `endTime` validity first (400), then `findUnique` (404), then
the conflict check, run only when `auditoryId || endTime` is truthy (409),
then the partial update.  A foreign-key violation of an applied
`deviceId`/`auditoryId` surfaces as a generic store error. -/
def updateBooking (db : DB) (i : String) (p : BookingPatch) (now : Int) :
    UpdateResult × DB :=
  if (timeVal p.endTime).any (fun t => decide (t ≤ now)) then
    (UpdateResult.invalidInterval, db)
  else
    match db.bookings.find? (fun b => decide (b.id = i)) with
    | none => (UpdateResult.notFound, db)
    | some b =>
      match (if strTruthy p.auditoryId || (timeVal p.endTime).isSome then
               findConflicting db (targetAuditoryId p b) now i
             else none) with
      | some c => (UpdateResult.roomBusy c.endTime, db)
      | none =>
        if strTruthy p.deviceId &&
            (findDevice db (applyPatch b p).deviceId).isNone then
          (UpdateResult.storeError, db)
        else if strTruthy p.auditoryId &&
            (findAuditory db (applyPatch b p).auditoryId).isNone then
          (UpdateResult.storeError, db)
        else
          let bs := db.bookings.map
            (fun x => if x.id = i then applyPatch b p else x)
          (UpdateResult.updated (expandBooking db (applyPatch b p)),
           { db with bookings := bs })

/-- Handler of `DELETE /api/bookings/:id`: `prisma.booking.delete` removes
the row, raising a generic not-found store error when it is absent. -/
def deleteBooking (db : DB) (i : String) : DeleteResult × DB :=
  if db.bookings.any (fun b => decide (b.id = i)) then
    (DeleteResult.deleted,
     { db with bookings := db.bookings.filter (fun b => decide (b.id ≠ i)) })
  else
    (DeleteResult.storeError, db)

/-- Error raised by the store client.  Modelled from the spec: the Prisma
store plugin (`src/backend/src/plugins/prisma.js`) is not in `src/`; per
spec section 4.2 the store's not-found class error is "propagated as a
generic failure, not specifically translated", i.e. it carries no HTTP
status code of its own. -/
structure StoreErr where
  statusCode : Option Nat
deriving Repr, DecidableEq

/-- Modelled from the spec: the not-found class error the store raises when
an update/delete targets a missing row; it carries no HTTP status code. -/
def storeNotFoundErr : StoreErr := { statusCode := none }

/-- The catch-all `setErrorHandler` (app.ts:77-89): uses `err.statusCode`
when it is a number, else 500. -/
def errorHandlerStatus (e : StoreErr) : Nat := e.statusCode.getD 500

/-- The `prisma.device.update({ where: { id }, data })` call of the
`PUT /api/devices/:id` handler (app.ts:196-200): updates the row or raises
the store's not-found error. -/
def deviceUpdate (devs : List Device) (i nm : String) :
    Except StoreErr (List Device) :=
  if devs.any (fun d => decide (d.id = i)) then
    Except.ok (devs.map (fun d => if d.id = i then { d with name := nm } else d))
  else
    Except.error storeNotFoundErr

/-- The `prisma.auditory.update` call of the `PUT /api/auditories/:id`
handler (app.ts:331-335). -/
def auditoryUpdate (auds : List Auditory) (i nm : String) (cap : Int) :
    Except StoreErr (List Auditory) :=
  if auds.any (fun a => decide (a.id = i)) then
    Except.ok (auds.map
      (fun a => if a.id = i then { a with name := nm, capacity := cap } else a))
  else
    Except.error storeNotFoundErr

/-- HTTP status of `PUT /api/devices/:id`: 200 on success, otherwise the
thrown store error reaches the catch-all handler. -/
def putDeviceStatus (devs : List Device) (i nm : String) : Nat :=
  match deviceUpdate devs i nm with
  | Except.ok _ => 200
  | Except.error e => errorHandlerStatus e

/-- HTTP status of `PUT /api/auditories/:id`. -/
def putAuditoryStatus (auds : List Auditory) (i nm : String) (cap : Int) : Nat :=
  match auditoryUpdate auds i nm cap with
  | Except.ok _ => 200
  | Except.error e => errorHandlerStatus e

/-- A booking operation of the HTTP surface, tagged with the instant at
which its handler samples `now`. -/
inductive Op where
  | create : String → String → String → Int → Int → Op
  | update : String → BookingPatch → Int → Op
  | delete : String → Int → Op
deriving Repr, DecidableEq

/-- The instant at which an operation's handler runs. -/
def Op.now : Op → Int
  | Op.create _ _ _ _ n => n
  | Op.update _ _ n => n
  | Op.delete _ n => n

/-- Effect of one operation on the store (the result is discarded). -/
def step (db : DB) : Op → DB
  | Op.create nid did aid e n => (createBooking db nid did aid e n).2
  | Op.update i p n => (updateBooking db i p n).2
  | Op.delete i _ => (deleteBooking db i).2

/-- Sequential execution of a list of operations. -/
def run (db : DB) (ops : List Op) : DB := ops.foldl step db

/-- Whether a booking row is active for auditory `aud` at instant `t`
(derived state `active` = `endTime > now`). -/
def isActiveAt (aud : String) (t : Int) (b : Booking) : Bool :=
  decide (b.auditoryId = aud ∧ t < b.endTime)

/-- Number of active bookings of an auditory at an instant. -/
def activeCount (s : List Booking) (aud : String) (t : Int) : Nat :=
  s.countP (isActiveAt aud t)

/-- Primary-key integrity: booking ids are pairwise distinct. -/
def IdsNodup (s : List Booking) : Prop := (s.map Booking.id).Nodup

/-- The core invariant at instant `t`: at most one active booking per
auditory. -/
def InvAt (s : List Booking) (t : Int) : Prop :=
  ∀ aud : String, activeCount s aud t ≤ 1

/-! Basic facts about the patch application. -/

theorem applyPatch_id (b : Booking) (p : BookingPatch) :
    (applyPatch b p).id = b.id := rfl

theorem applyPatch_startTime (b : Booking) (p : BookingPatch) :
    (applyPatch b p).startTime = b.startTime := rfl

theorem applyPatch_auditoryId (b : Booking) (p : BookingPatch) :
    (applyPatch b p).auditoryId = targetAuditoryId p b := rfl

theorem applyPatch_aud_of_not_truthy {p : BookingPatch} (b : Booking)
    (h : strTruthy p.auditoryId = false) :
    (applyPatch b p).auditoryId = b.auditoryId := by
  cases hA : p.auditoryId with
  | none => simp [applyPatch, hA]
  | some s =>
    simp [strTruthy, hA] at h
    simp [applyPatch, hA, h]

theorem applyPatch_end_of_none {p : BookingPatch} (b : Booking)
    (h : timeVal p.endTime = none) :
    (applyPatch b p).endTime = b.endTime := by
  simp [applyPatch, h]

theorem applyPatch_end_of_some {p : BookingPatch} (b : Booking) {t : Int}
    (h : timeVal p.endTime = some t) :
    (applyPatch b p).endTime = t := by
  simp [applyPatch, h]

/-! Facts about the active-booking count. -/

theorem activeCount_antitone (s : List Booking) {t0 t1 : Int} (h : t0 ≤ t1)
    (aud : String) : activeCount s aud t1 ≤ activeCount s aud t0 := by
  apply List.countP_mono_left
  intro b _ hb
  simp only [isActiveAt, decide_eq_true_eq] at hb ⊢
  exact ⟨hb.1, lt_of_le_of_lt h hb.2⟩

theorem activeCount_append (s1 s2 : List Booking) (aud : String) (t : Int) :
    activeCount (s1 ++ s2) aud t = activeCount s1 aud t + activeCount s2 aud t :=
  List.countP_append _ _ _

theorem activeCount_map_update (s : List Booking) (i : String) (b' : Booking)
    (aud : String) (t : Int) :
    activeCount (s.map (fun x => if x.id = i then b' else x)) aud t
      = s.countP (fun x => if x.id = i then isActiveAt aud t b'
                           else isActiveAt aud t x) := by
  unfold activeCount
  rw [List.countP_map]
  apply List.countP_congr
  intro x _
  by_cases hx : x.id = i <;> simp [Function.comp, hx]

theorem countP_id_le_one {s : List Booking} (hNd : IdsNodup s) (i : String) :
    s.countP (fun x => decide (x.id = i)) ≤ 1 := by
  have h1 : (s.map Booking.id).count i ≤ 1 :=
    List.nodup_iff_count_le_one.1 hNd i
  have h2 : (s.map Booking.id).count i
      = s.countP (fun x => decide (x.id = i)) := by
    rw [List.count_eq_countP, List.countP_map]
    apply List.countP_congr
    intro x _
    simp only [Function.comp_apply, beq_iff_eq, decide_eq_true_eq]
  omega

/-! Case analyses of the state change of each handler. -/

theorem createBooking_snd (db : DB) (nid did aid : String) (e n : Int) :
    (createBooking db nid did aid e n).2 = db ∨
    (n < e ∧ (∀ x ∈ db.bookings, ¬(x.auditoryId = aid ∧ n < x.endTime)) ∧
     (∀ x ∈ db.bookings, x.id ≠ nid) ∧
     (createBooking db nid did aid e n).2.bookings
       = db.bookings ++
           [{ id := nid, deviceId := did, auditoryId := aid,
              startTime := n, endTime := e }]) := by
  by_cases h1 : e ≤ n
  · left; simp [createBooking, h1]
  cases hfa : findActiveBooking db aid n with
  | some c => left; simp [createBooking, h1, hfa]
  | none =>
    by_cases h2 : db.bookings.any (fun b => decide (b.id = nid))
    · left; simp [createBooking, h1, hfa, h2]
    by_cases h3 : (findDevice db did).isNone
    · left; simp [createBooking, h1, hfa, h2, h3]
    by_cases h4 : (findAuditory db aid).isNone
    · left; simp [createBooking, h1, hfa, h2, h3, h4]
    right
    refine ⟨by omega, ?_, ?_, ?_⟩
    · intro x hx
      have := List.find?_eq_none.1 hfa x hx
      simpa using this
    · intro x hx hid
      apply h2
      simp only [List.any_eq_true]
      exact ⟨x, hx, by simp [hid]⟩
    · simp [createBooking, h1, hfa, h2, h3, h4]

theorem updateBooking_snd (db : DB) (i : String) (p : BookingPatch) (n : Int) :
    (updateBooking db i p n).2 = db ∨
    ∃ b, db.bookings.find? (fun x => decide (x.id = i)) = some b ∧
      (updateBooking db i p n).2.bookings
        = db.bookings.map (fun x => if x.id = i then applyPatch b p else x) ∧
      (∀ t, timeVal p.endTime = some t → n < t) ∧
      ((strTruthy p.auditoryId || (timeVal p.endTime).isSome) = true →
        ∀ x ∈ db.bookings,
          ¬(x.auditoryId = targetAuditoryId p b ∧ n < x.endTime ∧ x.id ≠ i)) ∧
      ((strTruthy p.auditoryId || (timeVal p.endTime).isSome) = false →
        (applyPatch b p).auditoryId = b.auditoryId ∧
        (applyPatch b p).endTime = b.endTime) := by
  by_cases h400 : (timeVal p.endTime).any (fun t => decide (t ≤ n)) = true
  · left; simp [updateBooking, h400]
  have hvalid : ∀ t, timeVal p.endTime = some t → n < t := by
    intro t ht
    rw [ht] at h400
    simp at h400
    omega
  cases hfind : db.bookings.find? (fun x => decide (x.id = i)) with
  | none => left; simp [updateBooking, h400, hfind]
  | some b =>
    by_cases hc : (strTruthy p.auditoryId || (timeVal p.endTime).isSome) = true
    · cases hconf : findConflicting db (targetAuditoryId p b) n i with
      | some c => left; simp [updateBooking, h400, hfind, hc, hconf]
      | none =>
        by_cases hfk1 : (strTruthy p.deviceId &&
            (findDevice db (applyPatch b p).deviceId).isNone) = true
        · left; simp [updateBooking, h400, hfind, hc, hconf, hfk1]
        by_cases hfk2 : (strTruthy p.auditoryId &&
            (findAuditory db (applyPatch b p).auditoryId).isNone) = true
        · left; simp [updateBooking, h400, hfind, hc, hconf, hfk1, hfk2]
        right
        refine ⟨b, rfl, ?_, hvalid, ?_, ?_⟩
        · simp [updateBooking, h400, hfind, hc, hconf, hfk1, hfk2]
        · intro _ x hx
          have := List.find?_eq_none.1 hconf x hx
          simpa using this
        · intro hco; rw [hc] at hco; cases hco
    · have hc' : (strTruthy p.auditoryId || (timeVal p.endTime).isSome) = false :=
        Bool.not_eq_true _ ▸ Bool.eq_false_iff.2 hc
      have haud : strTruthy p.auditoryId = false := by
        rcases Bool.or_eq_false_iff.1 hc' with ⟨h1, _⟩; exact h1
      have hend : (timeVal p.endTime).isSome = false := by
        rcases Bool.or_eq_false_iff.1 hc' with ⟨_, h2⟩; exact h2
      have hendn : timeVal p.endTime = none :=
        Option.not_isSome_iff_eq_none.1 (by simp [hend])
      by_cases hfk1 : (strTruthy p.deviceId &&
          (findDevice db (applyPatch b p).deviceId).isNone) = true
      · left; simp [updateBooking, h400, hfind, hc', hfk1]
      right
      refine ⟨b, rfl, ?_, hvalid, ?_, ?_⟩
      · simp [updateBooking, h400, hfind, hc', hfk1, haud, hend]
      · intro hco; rw [hco] at hc'; cases hc'
      · intro _
        exact ⟨applyPatch_aud_of_not_truthy b haud, applyPatch_end_of_none b hendn⟩

theorem deleteBooking_snd (db : DB) (i : String) :
    (deleteBooking db i).2 = db ∨
    (deleteBooking db i).2.bookings
      = db.bookings.filter (fun b => decide (b.id ≠ i)) := by
  by_cases h : db.bookings.any (fun b => decide (b.id = i))
  · right; simp [deleteBooking, h]
  · left; simp [deleteBooking, h]

/-! Preservation of primary-key integrity by each operation. -/

theorem idsNodup_step {db : DB} (hNd : IdsNodup db.bookings) (op : Op) :
    IdsNodup (step db op).bookings := by
  cases op with
  | create nid did aid e n =>
    rcases createBooking_snd db nid did aid e n with h | ⟨_, _, hfresh, hbk⟩
    · simpa [step, h] using hNd
    · unfold step
      rw [hbk]
      unfold IdsNodup
      rw [List.map_append]
      rw [List.nodup_append]
      refine ⟨hNd, List.nodup_singleton _, ?_⟩
      intro a ha hb
      simp only [List.map_singleton, List.mem_singleton] at hb
      rcases List.mem_map.1 ha with ⟨x, hx, hxid⟩
      exact hfresh x hx (hxid.trans hb)
  | update i p n =>
    rcases updateBooking_snd db i p n with h | ⟨b, hfind, hbk, _, _, _⟩
    · simpa [step, h] using hNd
    · unfold step
      rw [hbk]
      unfold IdsNodup
      have hbid : b.id = i := by
        have := List.find?_some hfind
        simpa using this
      have : (db.bookings.map (fun x => if x.id = i then applyPatch b p else x)).map
          Booking.id = db.bookings.map Booking.id := by
        rw [List.map_map]
        apply List.map_congr_left
        intro x _
        by_cases hx : x.id = i
        · simp [Function.comp, hx, applyPatch_id, hbid]
        · simp [Function.comp, hx]
      rw [this]
      exact hNd
  | delete i n =>
    rcases deleteBooking_snd db i with h | hbk
    · simpa [step, h] using hNd
    · unfold step
      rw [hbk]
      unfold IdsNodup
      exact ((List.filter_sublist _).map Booking.id).nodup hNd

/-! Preservation of the one-active-booking invariant. -/

theorem invAt_mono {s : List Booking} {t0 t1 : Int} (h : t0 ≤ t1)
    (hInv : InvAt s t0) : InvAt s t1 :=
  fun aud => le_trans (activeCount_antitone s h aud) (hInv aud)

theorem isActiveAt_congr {aud : String} {t : Int} {b1 b2 : Booking}
    (ha : b1.auditoryId = b2.auditoryId) (he : b1.endTime = b2.endTime) :
    isActiveAt aud t b1 = isActiveAt aud t b2 := by
  simp [isActiveAt, ha, he]

theorem invAt_step {db : DB} {t0 : Int} (hNd : IdsNodup db.bookings)
    (hInv : InvAt db.bookings t0) (op : Op) (hle : t0 ≤ op.now) :
    InvAt (step db op).bookings op.now := by
  cases op with
  | create nid did aid e n =>
    simp only [Op.now] at hle ⊢
    rcases createBooking_snd db nid did aid e n with h | ⟨he, hnoact, _, hbk⟩
    · rw [step, h]; exact invAt_mono hle hInv
    · intro aud
      rw [step, hbk, activeCount_append]
      by_cases haud : aud = aid
      · subst haud
        have h0 : activeCount db.bookings aud n = 0 := by
          apply List.countP_eq_zero.2
          intro x hx
          simp only [isActiveAt, decide_eq_true_eq]
          exact hnoact x hx
        have h1 : activeCount
            [{ id := nid, deviceId := did, auditoryId := aud,
               startTime := n, endTime := e }] aud n ≤ 1 :=
          le_trans (List.countP_le_length _) (by simp)
        omega
      · have h1 : activeCount
            [{ id := nid, deviceId := did, auditoryId := aid,
               startTime := n, endTime := e }] aud n = 0 := by
          apply List.countP_eq_zero.2
          intro x hx
          simp only [List.mem_singleton] at hx
          subst hx
          simp [isActiveAt]
          intro hcon
          exact absurd hcon.symm haud
        have h2 : activeCount db.bookings aud n ≤ 1 :=
          invAt_mono hle hInv aud
        omega
  | update i p n =>
    simp only [Op.now] at hle ⊢
    rcases updateBooking_snd db i p n with h | ⟨b, hfind, hbk, _, hcheck, hskip⟩
    · rw [step, h]; exact invAt_mono hle hInv
    · intro aud
      rw [step, hbk, activeCount_map_update]
      by_cases hc : (strTruthy p.auditoryId || (timeVal p.endTime).isSome) = true
      · have hconf := hcheck hc
        by_cases haud : aud = targetAuditoryId p b
        · calc db.bookings.countP
                (fun x => if x.id = i then isActiveAt aud n (applyPatch b p)
                          else isActiveAt aud n x)
              ≤ db.bookings.countP (fun x => decide (x.id = i)) := by
                apply List.countP_mono_left
                intro x hx hpx
                by_cases hxi : x.id = i
                · simp [hxi]
                · simp only [hxi, if_false] at hpx
                  simp only [isActiveAt, decide_eq_true_eq] at hpx
                  exact absurd ⟨haud ▸ hpx.1, hpx.2, hxi⟩ (hconf x hx)
            _ ≤ 1 := countP_id_le_one hNd i
        · calc db.bookings.countP
                (fun x => if x.id = i then isActiveAt aud n (applyPatch b p)
                          else isActiveAt aud n x)
              ≤ db.bookings.countP (isActiveAt aud n) := by
                apply List.countP_mono_left
                intro x _ hpx
                by_cases hxi : x.id = i
                · rw [hxi, if_pos rfl] at hpx
                  simp only [isActiveAt, decide_eq_true_eq,
                    applyPatch_auditoryId] at hpx
                  exact absurd hpx.1.symm haud
                · rwa [if_neg hxi] at hpx
            _ ≤ 1 := invAt_mono hle hInv aud
      · have hc' : (strTruthy p.auditoryId || (timeVal p.endTime).isSome) = false :=
          Bool.eq_false_iff.2 hc
        rcases hskip hc' with ⟨hsa, hse⟩
        have hbmem : b ∈ db.bookings := List.mem_of_find?_eq_some hfind
        have hbid : b.id = i := by
          have := List.find?_some hfind
          simpa using this
        have heq : db.bookings.countP
            (fun x => if x.id = i then isActiveAt aud n (applyPatch b p)
                      else isActiveAt aud n x)
            = activeCount db.bookings aud n := by
          apply List.countP_congr
          intro x hx
          by_cases hxi : x.id = i
          · have hxb : x = b :=
              List.inj_on_of_nodup_map hNd hx hbmem (by rw [hxi, hbid])
            subst hxb
            rw [if_pos hxi,
              isActiveAt_congr (hsa.trans rfl) (hse.trans rfl)]
          · rw [if_neg hxi]
        rw [heq]
        exact invAt_mono hle hInv aud
  | delete i n =>
    simp only [Op.now] at hle ⊢
    rcases deleteBooking_snd db i with h | hbk
    · rw [step, h]; exact invAt_mono hle hInv
    · intro aud
      rw [step, hbk]
      calc (db.bookings.filter (fun b => decide (b.id ≠ i))).countP
            (isActiveAt aud n)
          ≤ db.bookings.countP (isActiveAt aud n) :=
            (List.filter_sublist _).countP_le _
        _ ≤ 1 := invAt_mono hle hInv aud

/-! Preservation of interval well-formedness (endTime strictly after
startTime, startTime not in the future). -/

def WFAt (s : List Booking) (t : Int) : Prop :=
  ∀ b ∈ s, b.startTime < b.endTime ∧ b.startTime ≤ t

theorem wfAt_mono {s : List Booking} {t0 t1 : Int} (h : t0 ≤ t1)
    (hW : WFAt s t0) : WFAt s t1 :=
  fun b hb => ⟨(hW b hb).1, le_trans (hW b hb).2 h⟩

theorem wfAt_step {db : DB} {t0 : Int} (hW : WFAt db.bookings t0) (op : Op)
    (hle : t0 ≤ op.now) : WFAt (step db op).bookings op.now := by
  cases op with
  | create nid did aid e n =>
    simp only [Op.now] at hle ⊢
    rcases createBooking_snd db nid did aid e n with h | ⟨he, _, _, hbk⟩
    · rw [step, h]; exact wfAt_mono hle hW
    · rw [step, hbk]
      intro x hx
      rcases List.mem_append.1 hx with hx | hx
      · exact wfAt_mono hle hW x hx
      · simp only [List.mem_singleton] at hx
        subst hx
        exact ⟨he, le_refl n⟩
  | update i p n =>
    simp only [Op.now] at hle ⊢
    rcases updateBooking_snd db i p n with h | ⟨b, hfind, hbk, hvalid, _, _⟩
    · rw [step, h]; exact wfAt_mono hle hW
    · rw [step, hbk]
      intro x hx
      rcases List.mem_map.1 hx with ⟨y, hy, hxy⟩
      by_cases hyi : y.id = i
      · rw [if_pos hyi] at hxy
        subst hxy
        have hbmem : b ∈ db.bookings := List.mem_of_find?_eq_some hfind
        have hbW := hW b hbmem
        rw [applyPatch_startTime]
        cases hend : timeVal p.endTime with
        | some t =>
          rw [applyPatch_end_of_some b hend]
          exact ⟨lt_of_le_of_lt (le_trans hbW.2 hle) (hvalid t hend),
                 le_trans hbW.2 hle⟩
        | none =>
          rw [applyPatch_end_of_none b hend]
          exact ⟨hbW.1, le_trans hbW.2 hle⟩
      · rw [if_neg hyi] at hxy
        subst hxy
        exact wfAt_mono hle hW y hy
  | delete i n =>
    simp only [Op.now] at hle ⊢
    rcases deleteBooking_snd db i with h | hbk
    · rw [step, h]; exact wfAt_mono hle hW
    · rw [step, hbk]
      intro x hx
      exact wfAt_mono hle hW x (List.mem_of_mem_filter hx)

/-! Execution of an operation sequence with non-decreasing timestamps. -/

theorem run_cons (db : DB) (op : Op) (ops : List Op) :
    run db (op :: ops) = run (step db op) ops := rfl

theorem run_inv (ops : List Op) (db : DB) (t0 : Int)
    (hNd : IdsNodup db.bookings) (hInv : InvAt db.bookings t0)
    (hW : WFAt db.bookings t0)
    (hfirst : ∀ op ∈ ops, t0 ≤ op.now)
    (hmono : ops.Pairwise (fun a b => a.now ≤ b.now)) :
    IdsNodup (run db ops).bookings ∧
    ∀ t : Int, t0 ≤ t → (∀ op ∈ ops, op.now ≤ t) →
      InvAt (run db ops).bookings t ∧ WFAt (run db ops).bookings t := by
  induction ops generalizing db t0 with
  | nil =>
    refine ⟨hNd, fun t h1 _ => ⟨invAt_mono h1 hInv, wfAt_mono h1 hW⟩⟩
  | cons op ops ih =>
    have hle : t0 ≤ op.now := hfirst op (List.mem_cons_self op ops)
    have hNd' := idsNodup_step hNd op
    have hInv' := invAt_step hNd hInv op hle
    have hW' := wfAt_step hW op hle
    have hpc := List.pairwise_cons.1 hmono
    have hres := ih (step db op) op.now hNd' hInv' hW' hpc.1 hpc.2
    rw [run_cons]
    refine ⟨hres.1, fun t h1 h2 => ?_⟩
    exact hres.2 t (h2 op (List.mem_cons_self op ops))
      (fun o ho => h2 o (List.mem_cons_of_mem op ho))

/-! Concrete sample data used by witnesses and counterexamples. -/

def sampleDB : DB :=
  { devices := [{ id := "d1", name := "laptop" }],
    auditories := [{ id := "a1", name := "101", capacity := 30 }],
    bookings := [] }

def busyDB : DB :=
  { devices := [{ id := "d1", name := "laptop" }],
    auditories := [{ id := "a1", name := "101", capacity := 30 },
                   { id := "a2", name := "102", capacity := 10 }],
    bookings := [{ id := "b0", deviceId := "d1", auditoryId := "a1",
                   startTime := 0, endTime := 100 }] }

/-- C1: for every sequence of booking create, update and delete operations
applied one at a time to an initially empty booking store, with the
per-operation `now` timestamps non-decreasing, every auditory has at most
one booking with `endTime > t` at every instant `t` not earlier than the
operations that have run. -/
theorem at_most_one_active_per_auditory
    (devs : List Device) (auds : List Auditory) (ops : List Op)
    (hmono : ops.Pairwise (fun a b => a.now ≤ b.now))
    (t : Int) (ht : ∀ op ∈ ops, op.now ≤ t) (aud : String) :
    activeCount
      (run { devices := devs, auditories := auds, bookings := [] } ops).bookings
      aud t ≤ 1 := by
  cases ops with
  | nil => simp [run, activeCount]
  | cons op ops =>
    have hpc := List.pairwise_cons.1 hmono
    have hres := run_inv (op :: ops)
      { devices := devs, auditories := auds, bookings := [] } op.now
      (by simp [IdsNodup])
      (by intro aud2; simp [activeCount])
      (by intro b hb; cases hb)
      (by
        intro o ho
        rcases List.mem_cons.1 ho with h | h
        · exact h ▸ le_refl _
        · exact hpc.1 o h)
      hmono
    exact (hres.2 t (ht op (List.mem_cons_self op ops)) ht).1 aud

/-- C1 witness: a concrete three-operation history (create, extend by
update, then a second create that is refused) keeps auditory a1 at one
active booking when observed at instant 30. -/
theorem at_most_one_active_per_auditory_witness :
    activeCount
      (run { devices := [{ id := "d1", name := "laptop" }],
             auditories := [{ id := "a1", name := "101", capacity := 30 }],
             bookings := [] }
        [Op.create "b1" "d1" "a1" 100 0,
         Op.update "b1"
           { deviceId := none, auditoryId := none,
             endTime := some (TimeStr.time 200) } 10,
         Op.create "b2" "d1" "a1" 150 20]).bookings
      "a1" 30 ≤ 1 :=
  at_most_one_active_per_auditory _ _ _ (by decide) 30 (by decide) "a1"

/-- C3: a booking create request whose `endTime` is at or before the
sampled `now` fails with the invalid-interval error, surfaced as HTTP 400,
and leaves the store unchanged (app.ts:441-449 runs before any insert). -/
theorem createBooking_past_end_invalid (db : DB) (nid did aid : String)
    (e n : Int) (h : e ≤ n) :
    createBooking db nid did aid e n = (CreateResult.invalidInterval, db) ∧
    createStatus (createBooking db nid did aid e n).1 = 400 := by
  constructor
  · simp [createBooking, h]
  · simp [createBooking, h, createStatus]

/-- C3 witness: creating with `endTime = 5` at `now = 10` is refused with
status 400 and the (empty) booking table untouched. -/
theorem createBooking_past_end_invalid_witness :
    (5 : Int) ≤ 10 ∧
    (createBooking sampleDB "b1" "d1" "a1" 5 10
        = (CreateResult.invalidInterval, sampleDB) ∧
      createStatus (createBooking sampleDB "b1" "d1" "a1" 5 10).1 = 400) :=
  ⟨by decide, createBooking_past_end_invalid sampleDB "b1" "d1" "a1" 5 10 (by decide)⟩

/-- C2: every successful booking create persists a booking whose
`startTime` is the `now` the handler sampled (the store default
`CURRENT_TIMESTAMP` evaluated at the operation's instant), appends exactly
that booking, and returns it with the referenced Device and Auditory rows
expanded. -/
theorem createBooking_success_spec (db : DB) (nid did aid : String)
    (e n : Int) (v : BookingView) (db' : DB)
    (h : createBooking db nid did aid e n = (CreateResult.created v, db')) :
    v.booking.startTime = n ∧ v.booking.deviceId = did ∧
    v.booking.auditoryId = aid ∧ v.booking.endTime = e ∧
    db'.bookings = db.bookings ++ [v.booking] ∧
    (∃ d, findDevice db did = some d ∧ d.id = did ∧ v.device = some d) ∧
    (∃ a, findAuditory db aid = some a ∧ a.id = aid ∧ v.auditory = some a) := by
  by_cases h1 : e ≤ n
  · simp [createBooking, h1] at h
  cases hfa : findActiveBooking db aid n with
  | some c => simp [createBooking, h1, hfa] at h
  | none =>
    by_cases h2 : db.bookings.any (fun b => decide (b.id = nid))
    · simp [createBooking, h1, hfa, h2] at h
    by_cases h3 : (findDevice db did).isNone
    · simp [createBooking, h1, hfa, h2, h3] at h
    by_cases h4 : (findAuditory db aid).isNone
    · simp [createBooking, h1, hfa, h2, h3, h4] at h
    cases hd : findDevice db did with
    | none => exact absurd (by simp [hd]) h3
    | some d =>
    cases ha : findAuditory db aid with
    | none => exact absurd (by simp [ha]) h4
    | some a =>
    simp only [createBooking, h1, if_neg h1, hfa, h2, h3, h4,
      Bool.false_eq_true, if_false, Option.isNone_none, expandBooking,
      Prod.mk.injEq, CreateResult.created.injEq] at h
    rcases h with ⟨hv, hdb⟩
    subst hv
    subst hdb
    refine ⟨rfl, rfl, rfl, rfl, rfl, ⟨d, rfl, ?_, hd⟩, ⟨a, rfl, ?_, ha⟩⟩
    · have := List.find?_some hd
      simpa using this
    · have := List.find?_some ha
      simpa using this

def sampleBooking : Booking :=
  { id := "b1", deviceId := "d1", auditoryId := "a1",
    startTime := 10, endTime := 100 }

def sampleView : BookingView :=
  { booking := sampleBooking,
    device := some { id := "d1", name := "laptop" },
    auditory := some { id := "a1", name := "101", capacity := 30 } }

def sampleDB1 : DB := { sampleDB with bookings := [sampleBooking] }

/-- C2 witness: the concrete create at `now = 10` with `endTime = 100`
persists `startTime = 10` and returns the expanded device and auditory. -/
theorem createBooking_success_spec_witness :
    sampleView.booking.startTime = 10 ∧
    sampleView.booking.deviceId = "d1" ∧
    sampleView.booking.auditoryId = "a1" ∧
    sampleView.booking.endTime = 100 ∧
    sampleDB1.bookings = sampleDB.bookings ++ [sampleView.booking] ∧
    (∃ d, findDevice sampleDB "d1" = some d ∧ d.id = "d1" ∧
      sampleView.device = some d) ∧
    (∃ a, findAuditory sampleDB "a1" = some a ∧ a.id = "a1" ∧
      sampleView.auditory = some a) :=
  createBooking_success_spec sampleDB "b1" "d1" "a1" 100 10
    sampleView sampleDB1 (by decide)

/-- C4 counterexample: in `busyDB` auditory a1 has an active booking at
`now = 10` (its booking b0 ends at 100), yet a create request for a1 with
`endTime = 5` does not fail with the room-busy conflict: the
invalid-interval check at app.ts:441 runs first and answers 400, not 409. -/
theorem createBooking_busy_not_always_roomBusy :
    (∃ c ∈ busyDB.bookings, c.auditoryId = "a1" ∧ (10 : Int) < c.endTime) ∧
    (createBooking busyDB "b1" "d1" "a1" 5 10).1 = CreateResult.invalidInterval ∧
    createStatus (createBooking busyDB "b1" "d1" "a1" 5 10).1 = 400 ∧
    (∀ u : Int, (createBooking busyDB "b1" "d1" "a1" 5 10).1
        ≠ CreateResult.roomBusy u) := by
  refine ⟨⟨busyDB.bookings.head (by decide), by decide⟩, by decide, by decide, ?_⟩
  intro u h
  rw [show (createBooking busyDB "b1" "d1" "a1" 5 10).1
      = CreateResult.invalidInterval by decide] at h
  cases h

/-- C4 amended: a booking create request whose `endTime` is strictly after
`now`, targeting an auditory that already has a booking with
`endTime > now`, fails with the room-busy conflict, surfaced as HTTP 409;
the response carries the blocking booking's end (busy-until) time — the
value interpolated into the problem `detail` at app.ts:462 — and no booking
is persisted. -/
theorem createBooking_busy_roomBusy (db : DB) (nid did aid : String)
    (e n : Int) (hfut : n < e)
    (hbusy : ∃ c ∈ db.bookings, c.auditoryId = aid ∧ n < c.endTime) :
    ∃ c, findActiveBooking db aid n = some c ∧
      c.auditoryId = aid ∧ n < c.endTime ∧
      createBooking db nid did aid e n = (CreateResult.roomBusy c.endTime, db) ∧
      createStatus (CreateResult.roomBusy c.endTime) = 409 := by
  have h1 : ¬ e ≤ n := by omega
  have hsome : (findActiveBooking db aid n).isSome := by
    rw [findActiveBooking, List.find?_isSome]
    rcases hbusy with ⟨c, hc, hca, hce⟩
    exact ⟨c, hc, by simp [hca, hce]⟩
  cases hfa : findActiveBooking db aid n with
  | none => rw [hfa] at hsome; cases hsome
  | some c =>
    have hprop := List.find?_some hfa
    simp only [decide_eq_true_eq] at hprop
    exact ⟨c, rfl, hprop.1, hprop.2, by simp [createBooking, h1, hfa], rfl⟩

/-- C4 amended witness: the concrete busy store refuses a valid second
booking for a1 with 409 carrying busy-until time 100. -/
theorem createBooking_busy_roomBusy_witness :
    (10 : Int) < 150 ∧
    (∃ c ∈ busyDB.bookings, c.auditoryId = "a1" ∧ (10 : Int) < c.endTime) ∧
    ∃ c, findActiveBooking busyDB "a1" 10 = some c ∧
      c.auditoryId = "a1" ∧ (10 : Int) < c.endTime ∧
      createBooking busyDB "b1" "d1" "a1" 150 10
        = (CreateResult.roomBusy c.endTime, busyDB) ∧
      createStatus (CreateResult.roomBusy c.endTime) = 409 :=
  ⟨by decide, ⟨busyDB.bookings.head (by decide), by decide⟩,
   createBooking_busy_roomBusy busyDB "b1" "d1" "a1" 150 10 (by decide)
     ⟨busyDB.bookings.head (by decide), by decide⟩⟩

/-- C5: when an update patch supplies (truthily) `auditoryId` or `endTime`,
the conflict check runs against the effective auditory — the new one if
supplied, else the stored booking's — excluding the booking being updated,
and fails with room-busy/409 exactly when some other active booking of that
auditory exists; a patch supplying only `deviceId` skips the conflict check
and can never produce room-busy (app.ts:545-565).  The supplied `endTime`,
when present, is assumed to pass the strictly-future validation that runs
first. -/
theorem updateBooking_conflict_spec :
    (∀ (db : DB) (i : String) (p : BookingPatch) (n : Int) (b : Booking),
      db.bookings.find? (fun x => decide (x.id = i)) = some b →
      (strTruthy p.auditoryId || (timeVal p.endTime).isSome) = true →
      (∀ t, timeVal p.endTime = some t → n < t) →
      (∃ c ∈ db.bookings,
        c.auditoryId = targetAuditoryId p b ∧ n < c.endTime ∧ c.id ≠ i) →
      ∃ c : Booking,
        updateBooking db i p n = (UpdateResult.roomBusy c.endTime, db) ∧
        c.auditoryId = targetAuditoryId p b ∧ n < c.endTime ∧ c.id ≠ i ∧
        updateStatus (UpdateResult.roomBusy c.endTime) = 409) ∧
    (∀ (db : DB) (i : String) (p : BookingPatch) (n : Int) (b : Booking),
      db.bookings.find? (fun x => decide (x.id = i)) = some b →
      (∀ c ∈ db.bookings,
        ¬(c.auditoryId = targetAuditoryId p b ∧ n < c.endTime ∧ c.id ≠ i)) →
      ∀ u : Int, (updateBooking db i p n).1 ≠ UpdateResult.roomBusy u) ∧
    (∀ (db : DB) (i : String) (d : Option String) (n : Int) (u : Int),
      (updateBooking db i
          { deviceId := d, auditoryId := none, endTime := none } n).1
        ≠ UpdateResult.roomBusy u) := by
  refine ⟨?_, ?_, ?_⟩
  · intro db i p n b hfind hcond hvalid hconf
    have h400 : (timeVal p.endTime).any (fun t => decide (t ≤ n)) = false := by
      cases ht : timeVal p.endTime with
      | none => rfl
      | some t =>
        have := hvalid t ht
        simp
        omega
    have hsome : (findConflicting db (targetAuditoryId p b) n i).isSome := by
      rw [findConflicting, List.find?_isSome]
      rcases hconf with ⟨c, hc, hca, hce, hci⟩
      exact ⟨c, hc, by simp [hca, hce, hci]⟩
    cases hfc : findConflicting db (targetAuditoryId p b) n i with
    | none => rw [hfc] at hsome; cases hsome
    | some c =>
      have hprop := List.find?_some hfc
      simp only [decide_eq_true_eq] at hprop
      refine ⟨c, ?_, hprop.1, hprop.2.1, hprop.2.2, rfl⟩
      simp [updateBooking, h400, hfind, hcond, hfc]
  · intro db i p n b hfind hno u
    have hfc : findConflicting db (targetAuditoryId p b) n i = none := by
      rw [findConflicting, List.find?_eq_none]
      intro c hc
      simpa using hno c hc
    by_cases h400 : (timeVal p.endTime).any (fun t => decide (t ≤ n)) = true
    · simp [updateBooking, h400]
    · by_cases hcond : (strTruthy p.auditoryId || (timeVal p.endTime).isSome) = true
      · by_cases hfk1 : (strTruthy p.deviceId &&
            (findDevice db (applyPatch b p).deviceId).isNone) = true
        · simp [updateBooking, h400, hfind, hcond, hfc, hfk1]
        · by_cases hfk2 : (strTruthy p.auditoryId &&
              (findAuditory db (applyPatch b p).auditoryId).isNone) = true
          · simp [updateBooking, h400, hfind, hcond, hfc, hfk1, hfk2]
          · simp [updateBooking, h400, hfind, hcond, hfc, hfk1, hfk2]
      · have hcond' : (strTruthy p.auditoryId || (timeVal p.endTime).isSome)
            = false := Bool.eq_false_iff.2 hcond
        by_cases hfk1 : (strTruthy p.deviceId &&
            (findDevice db (applyPatch b p).deviceId).isNone) = true
        · simp [updateBooking, h400, hfind, hcond', hfk1]
        · simp [updateBooking, h400, hfind, hcond', hfk1,
            Bool.or_eq_false_iff.1 hcond']
  · intro db i d n u
    cases hfind : db.bookings.find? (fun x => decide (x.id = i)) with
    | none => simp [updateBooking, hfind, timeVal]
    | some b =>
      simp only [updateBooking, hfind, timeVal, strTruthy, Option.any_none,
        Option.isSome_none, Bool.or_false, Bool.false_eq_true, if_false]
      split
      · simp
      · simp

def bookingB1 : Booking :=
  { id := "b1", deviceId := "d1", auditoryId := "a2",
    startTime := 5, endTime := 90 }

def busyDB2 : DB := { busyDB with bookings := busyDB.bookings ++ [bookingB1] }

def patchToA1 : BookingPatch :=
  { deviceId := none, auditoryId := some "a1", endTime := none }

/-- C5 witness: moving booking b1 into auditory a1, which has the active
booking b0, is refused with 409 carrying b0's end time. -/
theorem updateBooking_conflict_spec_witness :
    ∃ c : Booking,
      updateBooking busyDB2 "b1" patchToA1 10
        = (UpdateResult.roomBusy c.endTime, busyDB2) ∧
      c.auditoryId = targetAuditoryId patchToA1 bookingB1 ∧
      (10 : Int) < c.endTime ∧ c.id ≠ "b1" ∧
      updateStatus (UpdateResult.roomBusy c.endTime) = 409 :=
  updateBooking_conflict_spec.1 busyDB2 "b1" patchToA1 10 bookingB1
    (by decide)
    (by decide)
    (by intro t ht; simp [timeVal, patchToA1] at ht)
    ⟨busyDB.bookings.head (by decide), by decide⟩

/-- C6 counterexample: updating the nonexistent booking id x with a past
`endTime` does not fail with not-found/404: the handler validates the
interval first (app.ts:517-529) and answers invalid-interval/400. -/
theorem updateBooking_missing_id_not_always_notFound :
    (∀ b ∈ sampleDB.bookings, b.id ≠ "x") ∧
    (updateBooking sampleDB "x"
        { deviceId := none, auditoryId := none,
          endTime := some (TimeStr.time 5) } 10).1
      = UpdateResult.invalidInterval ∧
    updateStatus (updateBooking sampleDB "x"
        { deviceId := none, auditoryId := none,
          endTime := some (TimeStr.time 5) } 10).1 = 400 ∧
    (updateBooking sampleDB "x"
        { deviceId := none, auditoryId := none,
          endTime := some (TimeStr.time 5) } 10).1
      ≠ UpdateResult.notFound := by
  refine ⟨by decide, by decide, by decide, by decide⟩

/-- C6 amended: a booking update whose id matches no stored booking fails
with not-found, surfaced as HTTP 404, leaving the store unchanged —
provided the patch's `endTime`, when truthily supplied, passes the
strictly-future validation that the handler runs first. -/
theorem updateBooking_missing_id_notFound (db : DB) (i : String)
    (p : BookingPatch) (n : Int)
    (hmiss : ∀ b ∈ db.bookings, b.id ≠ i)
    (hvalid : ∀ t, timeVal p.endTime = some t → n < t) :
    updateBooking db i p n = (UpdateResult.notFound, db) ∧
    updateStatus (updateBooking db i p n).1 = 404 := by
  have h400 : (timeVal p.endTime).any (fun t => decide (t ≤ n)) = false := by
    cases ht : timeVal p.endTime with
    | none => rfl
    | some t =>
      have := hvalid t ht
      simp
      omega
  have hfind : db.bookings.find? (fun x => decide (x.id = i)) = none := by
    rw [List.find?_eq_none]
    intro b hb
    simpa using hmiss b hb
  constructor
  · simp [updateBooking, h400, hfind]
  · simp [updateBooking, h400, hfind, updateStatus]

/-- C6 amended witness: the empty store answers 404 for an update of id x
with an empty patch. -/
theorem updateBooking_missing_id_notFound_witness :
    (∀ b ∈ sampleDB.bookings, b.id ≠ "x") ∧
    (updateBooking sampleDB "x"
        { deviceId := none, auditoryId := none, endTime := none } 10
      = (UpdateResult.notFound, sampleDB) ∧
    updateStatus (updateBooking sampleDB "x"
        { deviceId := none, auditoryId := none, endTime := none } 10).1 = 404) :=
  ⟨by decide,
   updateBooking_missing_id_notFound sampleDB "x"
     { deviceId := none, auditoryId := none, endTime := none } 10
     (by decide) (by intro t ht; simp [timeVal] at ht)⟩

/-- C7: after any sequence of booking operations with non-decreasing
timestamps, run from an empty booking store, every stored booking satisfies
`endTime > startTime`; and at the moment a booking is created its persisted
`startTime` is the sampled `now` and its `endTime` is strictly future. -/
theorem bookings_interval_wf
    (devs : List Device) (auds : List Auditory) (ops : List Op)
    (hmono : ops.Pairwise (fun a b => a.now ≤ b.now)) :
    (∀ b ∈ (run { devices := devs, auditories := auds, bookings := [] }
        ops).bookings, b.startTime < b.endTime) ∧
    (∀ (db : DB) (nid did aid : String) (e n : Int)
        (v : BookingView) (db' : DB),
      createBooking db nid did aid e n = (CreateResult.created v, db') →
      n < v.booking.endTime ∧ v.booking.startTime = n) := by
  constructor
  · cases ops with
    | nil => intro b hb; cases hb
    | cons op ops =>
      have hub : ∀ l : List Op, ∃ t : Int, ∀ o ∈ l, o.now ≤ t := by
        intro l
        induction l with
        | nil => exact ⟨0, by simp⟩
        | cons a l ih =>
          rcases ih with ⟨t, ht⟩
          refine ⟨max a.now t, ?_⟩
          intro o ho
          rcases List.mem_cons.1 ho with h | h
          · subst h; exact le_max_left _ _
          · exact le_trans (ht o h) (le_max_right _ _)
      rcases hub (op :: ops) with ⟨t, ht⟩
      have hpc := List.pairwise_cons.1 hmono
      have hres := run_inv (op :: ops)
        { devices := devs, auditories := auds, bookings := [] } op.now
        (by simp [IdsNodup])
        (by intro aud2; simp [activeCount])
        (by intro b hb; cases hb)
        (by
          intro o ho
          rcases List.mem_cons.1 ho with h | h
          · exact h ▸ le_refl _
          · exact hpc.1 o h)
        hmono
      intro b hb
      exact ((hres.2 t (ht op (List.mem_cons_self op ops)) ht).2 b hb).1
  · intro db nid did aid e n v db' h
    by_cases h1 : e ≤ n
    · simp [createBooking, h1] at h
    cases hfa : findActiveBooking db aid n with
    | some c => simp [createBooking, h1, hfa] at h
    | none =>
      by_cases h2 : db.bookings.any (fun b => decide (b.id = nid))
      · simp [createBooking, h1, hfa, h2] at h
      by_cases h3 : (findDevice db did).isNone
      · simp [createBooking, h1, hfa, h2, h3] at h
      by_cases h4 : (findAuditory db aid).isNone
      · simp [createBooking, h1, hfa, h2, h3, h4] at h
      simp only [createBooking, if_neg h1, hfa, h2, h3, h4,
        Bool.false_eq_true, if_false, expandBooking,
        Prod.mk.injEq, CreateResult.created.injEq] at h
      rcases h with ⟨hv, _⟩
      subst hv
      constructor
      · show n < e
        omega
      · rfl

/-- C7 witness: the concrete three-operation history leaves only bookings
with `endTime > startTime`, and the sample create stamps `startTime = 10`
with a strictly future end. -/
theorem bookings_interval_wf_witness :
    (∀ b ∈ (run
        { devices := [{ id := "d1", name := "laptop" }],
          auditories := [{ id := "a1", name := "101", capacity := 30 }],
          bookings := [] }
        [Op.create "b1" "d1" "a1" 100 0,
         Op.update "b1"
           { deviceId := none, auditoryId := none,
             endTime := some (TimeStr.time 200) } 10,
         Op.delete "b1" 20]).bookings, b.startTime < b.endTime) ∧
    (∀ (db : DB) (nid did aid : String) (e n : Int)
        (v : BookingView) (db' : DB),
      createBooking db nid did aid e n = (CreateResult.created v, db') →
      n < v.booking.endTime ∧ v.booking.startTime = n) :=
  bookings_interval_wf _ _ _ (by decide)

theorem updateBooking_preserves_tables (db : DB) (i : String)
    (p : BookingPatch) (n : Int) :
    (updateBooking db i p n).2.devices = db.devices ∧
    (updateBooking db i p n).2.auditories = db.auditories := by
  rw [updateBooking]
  split
  · exact ⟨rfl, rfl⟩
  · split
    · exact ⟨rfl, rfl⟩
    · split
      · exact ⟨rfl, rfl⟩
      · split
        · exact ⟨rfl, rfl⟩
        · split
          · exact ⟨rfl, rfl⟩
          · exact ⟨rfl, rfl⟩

/-- C8: a successful booking update changes only the patched row, and on
that row only the truthily supplied fields: its id and `startTime` are kept,
every field absent from the patch is kept, the device and auditory tables
are untouched, and every other booking row (same position, same content) is
untouched.  Primary-key integrity of the store (`IdsNodup`) is the standing
database invariant. -/
theorem updateBooking_frame (db : DB) (i : String) (p : BookingPatch)
    (n : Int) (v : BookingView) (db' : DB)
    (hNd : IdsNodup db.bookings)
    (h : updateBooking db i p n = (UpdateResult.updated v, db')) :
    db'.devices = db.devices ∧ db'.auditories = db.auditories ∧
    db'.bookings.length = db.bookings.length ∧
    ∀ (j : Nat) (b0 : Booking), db.bookings[j]? = some b0 →
      (b0.id ≠ i → db'.bookings[j]? = some b0) ∧
      (b0.id = i → ∃ b1 : Booking, db'.bookings[j]? = some b1 ∧
        b1.id = b0.id ∧ b1.startTime = b0.startTime ∧
        (p.deviceId = none → b1.deviceId = b0.deviceId) ∧
        (p.auditoryId = none → b1.auditoryId = b0.auditoryId) ∧
        (p.endTime = none → b1.endTime = b0.endTime)) := by
  have hsnd : (updateBooking db i p n).2 = db' := congrArg Prod.snd h
  have htab := updateBooking_preserves_tables db i p n
  refine ⟨by rw [← hsnd]; exact htab.1, by rw [← hsnd]; exact htab.2, ?_, ?_⟩
  all_goals
    rcases updateBooking_snd db i p n with heq | ⟨b, hfind, hbk, _, _, _⟩
  · rw [← hsnd, heq]
  · rw [← hsnd, hbk, List.length_map]
  · rw [← hsnd, heq]
    intro j b0 hj
    refine ⟨fun _ => hj, fun _ => ⟨b0, hj, rfl, rfl, fun _ => rfl,
      fun _ => rfl, fun _ => rfl⟩⟩
  · rw [← hsnd, hbk]
    intro j b0 hj
    have hget : (db.bookings.map
          (fun x => if x.id = i then applyPatch b p else x))[j]?
        = some (if b0.id = i then applyPatch b p else b0) := by
      rw [List.getElem?_map, hj]
      rfl
    constructor
    · intro hne
      rw [hget, if_neg hne]
    · intro hid
      have hb0mem : b0 ∈ db.bookings := by
        rcases List.getElem?_eq_some_iff.1 hj with ⟨hlt, hv2⟩
        exact hv2 ▸ List.getElem_mem hlt
      have hbmem : b ∈ db.bookings := List.mem_of_find?_eq_some hfind
      have hbid : b.id = i := by
        have := List.find?_some hfind
        simpa using this
      have hb0b : b0 = b :=
        List.inj_on_of_nodup_map hNd hb0mem hbmem (by rw [hid, hbid])
      refine ⟨applyPatch b p, by rw [hget, if_pos hid], ?_, ?_, ?_, ?_, ?_⟩
      · rw [applyPatch_id, hb0b]
      · rw [applyPatch_startTime, hb0b]
      · intro hdev
        rw [hb0b]
        simp [applyPatch, hdev]
      · intro haud
        rw [hb0b]
        simp [applyPatch, haud]
      · intro hend
        rw [hb0b]
        simp [applyPatch, hend, timeVal]

/-- C8 witness: extending booking b1's end time changes nothing but that
end time, and leaves the other booking b0 in place. -/
theorem updateBooking_frame_witness :
    ∃ v : BookingView, ∃ db' : DB,
      updateBooking busyDB2 "b1"
        { deviceId := none, auditoryId := none,
          endTime := some (TimeStr.time 300) } 10 = (UpdateResult.updated v, db') ∧
      (db'.devices = busyDB2.devices ∧ db'.auditories = busyDB2.auditories ∧
       db'.bookings.length = busyDB2.bookings.length ∧
       ∀ (j : Nat) (b0 : Booking), busyDB2.bookings[j]? = some b0 →
        (b0.id ≠ "b1" → db'.bookings[j]? = some b0) ∧
        (b0.id = "b1" → ∃ b1 : Booking, db'.bookings[j]? = some b1 ∧
          b1.id = b0.id ∧ b1.startTime = b0.startTime ∧
          ((none : Option String) = none → b1.deviceId = b0.deviceId) ∧
          ((none : Option String) = none → b1.auditoryId = b0.auditoryId) ∧
          ((some (TimeStr.time 300) : Option TimeStr) = none →
            b1.endTime = b0.endTime))) :=
  ⟨_, _, rfl,
   updateBooking_frame busyDB2 "b1"
     { deviceId := none, auditoryId := none,
       endTime := some (TimeStr.time 300) } 10 _ _
     (by unfold IdsNodup; decide) rfl⟩

/-- C9 counterexample: a PUT of device d1 against an empty device table
does not answer 404: the store's not-found error carries no HTTP status
(spec section 4.2: "propagated as a generic failure, not specifically
translated"), so the catch-all handler (app.ts:77-89) answers 500. -/
theorem put_missing_row_not_404 :
    (∀ d ∈ ([] : List Device), d.id ≠ "d1") ∧
    putDeviceStatus [] "d1" "newName" = 500 ∧
    putDeviceStatus [] "d1" "newName" ≠ 404 ∧
    (∀ a ∈ ([] : List Auditory), a.id ≠ "a1") ∧
    putAuditoryStatus [] "a1" "newName" 5 = 500 ∧
    putAuditoryStatus [] "a1" "newName" 5 ≠ 404 := by
  refine ⟨?_, rfl, by decide, ?_, rfl, by decide⟩
  · intro d hd; cases hd
  · intro a ha; cases ha

/-- C9 amended: a PUT to /api/devices/:id or /api/auditories/:id whose id
matches no row answers HTTP 500: the handlers call the store's update
directly, the store's not-found error carries no status code, and the
catch-all error handler defaults to 500; the 404 mapping applies only to
routes that raise not-found explicitly. -/
theorem put_missing_row_500 (devs : List Device) (auds : List Auditory)
    (i nm : String) (cap : Int)
    (hd : ∀ d ∈ devs, d.id ≠ i) (ha : ∀ a ∈ auds, a.id ≠ i) :
    putDeviceStatus devs i nm = 500 ∧ putAuditoryStatus auds i nm cap = 500 := by
  have hd' : devs.any (fun d => decide (d.id = i)) = false := by
    rw [List.any_eq_false]
    intro d hdm
    simpa using hd d hdm
  have ha' : auds.any (fun a => decide (a.id = i)) = false := by
    rw [List.any_eq_false]
    intro a ham
    simpa using ha a ham
  constructor
  · simp [putDeviceStatus, deviceUpdate, hd', errorHandlerStatus,
      storeNotFoundErr]
  · simp [putAuditoryStatus, auditoryUpdate, ha', errorHandlerStatus,
      storeNotFoundErr]

/-- C9 amended witness: with one unrelated device and auditory present,
PUT of the missing ids dX and aX answers 500 on both routes. -/
theorem put_missing_row_500_witness :
    (∀ d ∈ [({ id := "d1", name := "laptop" } : Device)], d.id ≠ "dX") ∧
    (∀ a ∈ [({ id := "a1", name := "101", capacity := 30 } : Auditory)],
      a.id ≠ "aX") ∧
    (putDeviceStatus [{ id := "d1", name := "laptop" }] "dX" "nm" = 500 ∧
     putAuditoryStatus [{ id := "a1", name := "101", capacity := 30 }]
       "aX" "nm" 7 = 500) :=
  ⟨by decide, by decide,
   put_missing_row_500 [{ id := "d1", name := "laptop" }]
     [{ id := "a1", name := "101", capacity := 30 }] "dX" "nm" 7
     (by decide) (by decide)⟩

/-- The update patch with its falsy (empty-string) fields removed. -/
def normalizePatch (p : BookingPatch) : BookingPatch :=
  { deviceId :=
      match p.deviceId with
      | some s => if s = "" then none else some s
      | none => none
    auditoryId :=
      match p.auditoryId with
      | some s => if s = "" then none else some s
      | none => none
    endTime :=
      match p.endTime with
      | some (TimeStr.time t) => some (TimeStr.time t)
      | some TimeStr.emptyStr => none
      | none => none }

theorem timeVal_normalize (p : BookingPatch) :
    timeVal (normalizePatch p).endTime = timeVal p.endTime := by
  cases h : p.endTime with
  | none => simp [normalizePatch, h, timeVal]
  | some ts => cases ts <;> simp [normalizePatch, h, timeVal]

theorem strTruthy_dev_normalize (p : BookingPatch) :
    strTruthy (normalizePatch p).deviceId = strTruthy p.deviceId := by
  cases h : p.deviceId with
  | none => simp [normalizePatch, h, strTruthy]
  | some s =>
    by_cases hs : s = "" <;> simp [normalizePatch, h, strTruthy, hs]

theorem strTruthy_aud_normalize (p : BookingPatch) :
    strTruthy (normalizePatch p).auditoryId = strTruthy p.auditoryId := by
  cases h : p.auditoryId with
  | none => simp [normalizePatch, h, strTruthy]
  | some s =>
    by_cases hs : s = "" <;> simp [normalizePatch, h, strTruthy, hs]

theorem targetAud_normalize (p : BookingPatch) (b : Booking) :
    targetAuditoryId (normalizePatch p) b = targetAuditoryId p b := by
  cases h : p.auditoryId with
  | none => simp [normalizePatch, h, targetAuditoryId]
  | some s =>
    by_cases hs : s = "" <;> simp [normalizePatch, h, targetAuditoryId, hs]

theorem applyPatch_normalize (b : Booking) (p : BookingPatch) :
    applyPatch b (normalizePatch p) = applyPatch b p := by
  unfold applyPatch
  rw [timeVal_normalize]
  congr 1
  · cases h : p.deviceId with
    | none => simp [normalizePatch, h]
    | some s => by_cases hs : s = "" <;> simp [normalizePatch, h, hs]
  · cases h : p.auditoryId with
    | none => simp [normalizePatch, h]
    | some s => by_cases hs : s = "" <;> simp [normalizePatch, h, hs]

/-- C10: on every update, fields supplied as empty strings behave exactly
as if absent — the handler only ever inspects them through JavaScript
truthiness (app.ts:517, 545, 565-570) — and an update of an existing
booking whose every supplied field is the empty string succeeds, returning
the row unchanged and leaving the whole store unchanged. -/
theorem emptyString_fields_not_supplied :
    (∀ (db : DB) (i : String) (p : BookingPatch) (n : Int),
      updateBooking db i p n = updateBooking db i (normalizePatch p) n) ∧
    (∀ (db : DB) (i : String) (b : Booking) (n : Int),
      IdsNodup db.bookings →
      db.bookings.find? (fun x => decide (x.id = i)) = some b →
      ∃ db2 : DB,
        updateBooking db i
            { deviceId := some "", auditoryId := some "",
              endTime := some TimeStr.emptyStr } n
          = (UpdateResult.updated (expandBooking db b), db2) ∧
        db2.bookings = db.bookings ∧ db2.devices = db.devices ∧
        db2.auditories = db.auditories) := by
  constructor
  · intro db i p n
    symm
    simp only [updateBooking, timeVal_normalize, strTruthy_aud_normalize,
      strTruthy_dev_normalize, targetAud_normalize, applyPatch_normalize]
  · intro db i b n hNd hfind
    have hap : applyPatch b
        { deviceId := some "", auditoryId := some "",
          endTime := some TimeStr.emptyStr } = b := by
      simp [applyPatch, timeVal]
    have hbmem : b ∈ db.bookings := List.mem_of_find?_eq_some hfind
    have hbid : b.id = i := by
      have := List.find?_some hfind
      simpa using this
    have hmap : db.bookings.map (fun x => if x.id = i then b else x)
        = db.bookings := by
      have : db.bookings.map (fun x => if x.id = i then b else x)
          = db.bookings.map id := by
        apply List.map_congr_left
        intro x hx
        by_cases hxi : x.id = i
        · rw [if_pos hxi, id]
          exact List.inj_on_of_nodup_map hNd hbmem hx (by rw [hbid, hxi])
        · rw [if_neg hxi, id]
      rw [this, List.map_id]
    refine ⟨(updateBooking db i
        { deviceId := some "", auditoryId := some "",
          endTime := some TimeStr.emptyStr } n).2, ?_, ?_,
      (updateBooking_preserves_tables db i _ n).1,
      (updateBooking_preserves_tables db i _ n).2⟩
    · have h1 : (updateBooking db i
          { deviceId := some "", auditoryId := some "",
            endTime := some TimeStr.emptyStr } n).1
          = UpdateResult.updated (expandBooking db b) := by
        simp [updateBooking, timeVal, strTruthy, hfind, hap]
      exact Prod.ext h1 rfl
    · have h2 : (updateBooking db i
          { deviceId := some "", auditoryId := some "",
            endTime := some TimeStr.emptyStr } n).2.bookings
          = db.bookings.map (fun x => if x.id = i then b else x) := by
        simp [updateBooking, timeVal, strTruthy, hfind, hap]
      rw [h2, hmap]

/-- C10 witness: the all-empty-string patch on existing booking b1 equals
its normalized (all-absent) form and succeeds leaving the store unchanged. -/
theorem emptyString_fields_not_supplied_witness :
    (updateBooking busyDB2 "b1"
        { deviceId := some "", auditoryId := some "",
          endTime := some TimeStr.emptyStr } 10
      = updateBooking busyDB2 "b1"
          (normalizePatch
            { deviceId := some "", auditoryId := some "",
              endTime := some TimeStr.emptyStr }) 10) ∧
    ∃ db2 : DB,
      updateBooking busyDB2 "b1"
          { deviceId := some "", auditoryId := some "",
            endTime := some TimeStr.emptyStr } 10
        = (UpdateResult.updated (expandBooking busyDB2 bookingB1), db2) ∧
      db2.bookings = busyDB2.bookings ∧ db2.devices = busyDB2.devices ∧
      db2.auditories = busyDB2.auditories :=
  ⟨emptyString_fields_not_supplied.1 busyDB2 "b1"
     { deviceId := some "", auditoryId := some "",
       endTime := some TimeStr.emptyStr } 10,
   emptyString_fields_not_supplied.2 busyDB2 "b1" bookingB1 10
     (by unfold IdsNodup; decide) (by decide)⟩
